import Mathlib

/-!
Shallow embedding of `src/api_handler.py` (class `AutotraderAPI`): the
adaptive price-range partitioner `build_subqueries`, the retrying fetcher
`make_request`, and the pooled aggregator `run_subqueries`.

Modelling conventions:
* Prices and price steps are Python integers, embedded as `Int`.
* The HTTP probe `requests.get(...).json().get('totalResultCount', 0)` is an
  oracle `probe : Int → Int → Nat` mapping `(minPrice, maxPrice)` to the
  reported count (non-negative, deterministic per range).
* Python `int(x / y)` on numbers (used at lines 76, 114, 138 of the source)
  truncates toward zero; it is embedded as `Int.tdiv` of the exact products,
  i.e. float arithmetic is modelled as exact rational arithmetic followed by
  truncation.
* `ZeroDivisionError` (reachable at line 76 when the initial probe reports 0)
  is an explicit `BuildResult.divByZero` outcome.
* The unbounded `while True` loop is embedded with explicit fuel; exhausted
  fuel is the `BuildResult.timeout` outcome, and divergence of the source
  loop corresponds to `timeout` for every fuel value.
* The write-only locals `sub_step_count` and `total_remaining_records`
  (lines 81, 85, 155-156: incremented/decremented but never read after
  initialisation) are omitted from the loop state.
-/

namespace Autotrader

/-- The constant `AutotraderAPI.record_request_threshold` (line 12 of the source). -/
def threshold : Nat := 3800

/-- Python `int(a / b)`: true division followed by `int`, which truncates
toward zero.  Embedded as truncating integer division of the exact values. -/
def pydiv (a b : Int) : Int := Int.tdiv a b

/-- One emitted price sub-range, `{'minPrice': lo, 'maxPrice': hi}`.  The
`expected_count` key attached in the final branch (line 100) is dropped by
the comprehension at line 171, so it is not part of the result. -/
structure PriceRange where
  minPrice : Int
  maxPrice : Int
deriving DecidableEq

/-- Mutable state of the forward-search loop of `build_subqueries`:
`subquery_params['minPrice']`, `subquery_params['maxPrice']`,
`next_price_step` and `highest_seen_current`. -/
structure SState where
  minPrice : Int
  maxPrice : Int
  step : Int
  highest : Option Int
deriving DecidableEq

/-- Line 114: `rel_step = int((record_request_threshold / count) * next_price_step)`. -/
def relStepRaw (step : Int) (count : Nat) : Int := pydiv (threshold * step) count

/-- Lines 117-122: force a minimum step-size delta of 500 between the old
step and the correction, in the direction of the correction. -/
def minStepAdjust (step rel : Int) : Int :=
  if (rel - step).natAbs < 500 then
    if rel < step then step - 500
    else if step < rel then step + 500
    else rel
  else rel

/-- Lines 114-125: relative correction, minimum-delta enforcement, then a
cap of the new step at twice the previous step. -/
def cappedStep (step : Int) (count : Nat) : Int :=
  min (minStepAdjust step (relStepRaw step count)) (step * 2)

/-- Lines 127-133: update `highest_seen_current`, only when the observed
count exceeds the threshold. -/
def updHighest (highest : Option Int) (cmax : Int) (count : Nat) : Option Int :=
  if threshold < count then
    match highest with
    | none => some cmax
    | some h => if h < cmax then some cmax else some h
  else highest

/-- Lines 136-138: if `highest_seen_current` is set and the candidate step
exceeds it, replace the step by `int((highest - current_max)/2) + current_max`. -/
def bisectStep (highest : Option Int) (cmax cand : Int) : Int :=
  match highest with
  | some h => if h < cand then pydiv (h - cmax) 2 + cmax else cand
  | none => cand

/-- Result of one iteration of the `while True` loop (lines 84-163). -/
inductive StepRes where
  /-- Line 96: upper price limit reached; emit the final range and stop. -/
  | last (r : PriceRange)
  /-- Line 105: zero records in the current range; stop without emitting. -/
  | stop
  /-- Lines 146-163: in-band count; emit the range and advance. -/
  | emit (r : PriceRange) (s : SState)
  /-- Lines 109-144: out-of-band count; adjust the step, do not advance. -/
  | cont (s : SState)
deriving DecidableEq

/-- One iteration of the forward-search loop of `build_subqueries`
(lines 84-163 of the source), as a function of the loop state. -/
def stepOnce (probe : Int → Int → Nat) (mainMax : Int) (s : SState) : StepRes :=
  let count := probe s.minPrice s.maxPrice
  if s.maxPrice = mainMax then
    .last ⟨s.minPrice, s.maxPrice⟩
  else if count = 0 then
    .stop
  else if threshold < count ∨ (count < threshold ∧ 1000 < threshold - count) then
    let h1 := updHighest s.highest s.maxPrice count
    let step2 := bisectStep h1 s.maxPrice (cappedStep s.step count)
    let m0 := s.minPrice + step2
    .cont ⟨s.minPrice, if mainMax < m0 then mainMax else m0, step2, h1⟩
  else
    let w := s.maxPrice - s.minPrice
    .emit ⟨s.minPrice, s.maxPrice⟩
      ⟨s.maxPrice + 1,
       if s.maxPrice + w < mainMax then s.maxPrice + w else mainMax,
       w, none⟩

/-- The `while True` loop, with explicit fuel; `none` models a run that has
not finished within `fuel` iterations. -/
def loop (probe : Int → Int → Nat) (mainMax : Int) : Nat → SState → Option (List PriceRange)
  | 0, _ => none
  | fuel + 1, s =>
    match stepOnce probe mainMax s with
    | .last r => some [r]
    | .stop => some []
    | .emit r s' => (loop probe mainMax fuel s').map (fun l => r :: l)
    | .cont s' => loop probe mainMax fuel s'

/-- Outcome of `build_subqueries`. -/
inductive BuildResult where
  /-- The initial probe reported 0 and line 76 divides by it. -/
  | divByZero
  /-- The loop did not finish within the supplied fuel. -/
  | timeout
  /-- Normal return (line 171). -/
  | ok (l : List PriceRange)
deriving DecidableEq

/-- Lines 70-78: initial probe over the full bounding range, then
`next_price_step = int((threshold / total) * maxPrice)` and
`subquery_params['maxPrice'] = next_price_step`.  `none` models the
`ZeroDivisionError` raised when the total is 0. -/
def initState (probe : Int → Int → Nat) (mainMin mainMax : Int) : Option SState :=
  let total := probe mainMin mainMax
  if total = 0 then none
  else
    let step0 := pydiv (threshold * mainMax) total
    some ⟨mainMin, step0, step0, none⟩

/-- The partitioner `build_subqueries` (lines 49-171): initialisation followed by the
forward-search loop. -/
def build_subqueries (probe : Int → Int → Nat) (mainMin mainMax : Int)
    (fuel : Nat) : BuildResult :=
  match initState probe mainMin mainMax with
  | none => .divByZero
  | some s =>
    match loop probe mainMax fuel s with
    | none => .timeout
    | some l => .ok l

/-- A point lies inside an emitted price range. -/
def memRange (x : Int) (r : PriceRange) : Prop :=
  r.minPrice ≤ x ∧ x ≤ r.maxPrice

instance (x : Int) (r : PriceRange) : Decidable (memRange x r) := by
  unfold memRange; infer_instance

/-- A point of the bounding range is covered by some emitted sub-range. -/
def coversPt (qs : List PriceRange) (x : Int) : Prop :=
  ∃ r ∈ qs, memRange x r

instance (qs : List PriceRange) (x : Int) : Decidable (coversPt qs x) := by
  unfold coversPt; infer_instance

/-! ### Concrete probe oracles used as test inputs

Each oracle's values are chosen so that the Python float expressions
`int((3800 / count) * step)` are exact (the intermediate doubles are exact),
so the exact-rational embedding agrees with CPython on every reachable probe. -/

/-- Oracle whose first sub-range probe reports 0: total 15200 over
`[0, 150000]` (initial step 37500), then 0 for `[0, 37500]`. -/
def probeC1 : Int → Int → Nat := fun lo hi =>
  if lo = 0 ∧ hi = 150000 then 15200 else 0

/-- Oracle driving a clean two-range run over `[0, 100000]`:
total 7600 (initial step 50000), in-band 3800 on `[0, 50000]`,
then 9999 on the final `[50001, 100000]`. -/
def probeC2 : Int → Int → Nat := fun lo hi =>
  if lo = 0 ∧ hi = 100000 then 7600
  else if lo = 0 ∧ hi = 50000 then 3800
  else if lo = 50001 ∧ hi = 100000 then 9999 else 0

/-- Adversarial oracle over `[0, 160000]`: total 304000 (initial step 2000),
7600 on `[0, 2000]` and 1900 on `[0, 1000]`, making the loop alternate
between `maxPrice` 2000 and 1000 forever. -/
def probeC4 : Int → Int → Nat := fun lo hi =>
  if lo = 0 ∧ hi = 160000 then 304000
  else if lo = 0 ∧ hi = 2000 then 7600
  else if lo = 0 ∧ hi = 1000 then 1900 else 0

/-- Oracle over `[0, 150000]` driving the run into the bisection clamp with
`currentLow = 37501 ≠ 0`: accept `[0, 37500]`, overflow at 75000 (sets
`highest_seen_current`), then two sparse probes that double the step past it. -/
def probeC5 : Int → Int → Nat := fun lo hi =>
  if lo = 0 ∧ hi = 150000 then 15200
  else if lo = 0 ∧ hi = 37500 then 3800
  else if lo = 37501 ∧ hi = 75000 then 4096
  else if lo = 37501 ∧ hi = 72291 then 950
  else if lo = 37501 ∧ hi = 107081 then 950 else 0

/-- Oracle for the initial-step computation: total 15200 over the
non-zero-based bounding range `[50000, 150000]`, and total 950 over
`[0, 150000]` (whose naive step 600000 overshoots the bounds). -/
def probeC6 : Int → Int → Nat := fun lo hi =>
  if lo = 50000 ∧ hi = 150000 then 15200
  else if lo = 0 ∧ hi = 150000 then 950 else 0

/-! ### Shape of a single loop iteration -/

/-- The final branch (line 96) emits exactly the current range. -/
theorem stepOnce_last_inv {probe : Int → Int → Nat} {M : Int} {s : SState}
    {r : PriceRange} (h : stepOnce probe M s = .last r) :
    r = ⟨s.minPrice, s.maxPrice⟩ := by
  simp only [stepOnce] at h
  split_ifs at h <;>
    first
      | (injection h with hr; exact hr.symm)
      | injection h

/-- The in-band branch (lines 146-163) emits the current range, advances
`minPrice` to just past it, and only fires when the observed count is within
the threshold. -/
theorem stepOnce_emit_inv {probe : Int → Int → Nat} {M : Int} {s s' : SState}
    {r : PriceRange} (h : stepOnce probe M s = .emit r s') :
    r = ⟨s.minPrice, s.maxPrice⟩ ∧ s'.minPrice = s.maxPrice + 1 ∧
      probe s.minPrice s.maxPrice ≤ threshold := by
  simp only [stepOnce] at h
  split_ifs at h with h1 h2 h3 h4 h5 <;>
    first
      | (injection h with hr hs; subst hr; subst hs;
         exact ⟨rfl, rfl, Nat.not_lt.mp (not_or.mp h3).1⟩)
      | injection h

/-- The out-of-band branch (lines 109-144) never moves `minPrice`. -/
theorem stepOnce_cont_inv {probe : Int → Int → Nat} {M : Int} {s s' : SState}
    (h : stepOnce probe M s = .cont s') :
    s'.minPrice = s.minPrice := by
  simp only [stepOnce] at h
  split_ifs at h <;>
    first
      | (injection h with hs; subst hs; rfl)
      | injection h

/-- The initial state starts at the bounding range's low end (line 66 keeps
`minPrice`; only `maxPrice` is overwritten at line 77). -/
theorem initState_minPrice {probe : Int → Int → Nat} {lo hi : Int} {s : SState}
    (h : initState probe lo hi = some s) : s.minPrice = lo := by
  simp only [initState] at h
  split_ifs at h <;>
    first
      | (injection h with hs; subst hs; rfl)
      | injection h

/-! ### Loop invariants -/

/-- Any finished run of the loop emits an abutting chain of ranges whose
first range starts at the state's current `minPrice`. -/
theorem loop_chain (probe : Int → Int → Nat) (M : Int) :
    ∀ (fuel : Nat) (s : SState) (qs : List PriceRange),
      loop probe M fuel s = some qs →
      List.Chain' (fun a b => b.minPrice = a.maxPrice + 1) qs ∧
        (∀ r, qs.head? = some r → r.minPrice = s.minPrice) := by
  intro fuel
  induction fuel with
  | zero => intro s qs h; simp [loop] at h
  | succ n ih =>
    intro s qs h
    simp only [loop] at h
    cases hstep : stepOnce probe M s with
    | last r =>
      rw [hstep] at h
      simp only [Option.some.injEq] at h
      subst h
      refine ⟨List.chain'_singleton r, fun r' hr' => ?_⟩
      simp only [List.head?_cons, Option.some.injEq] at hr'
      subst hr'
      rw [stepOnce_last_inv hstep]
    | stop =>
      rw [hstep] at h
      simp only [Option.some.injEq] at h
      subst h
      exact ⟨List.chain'_nil, fun r' hr' => by simp at hr'⟩
    | emit r s' =>
      rw [hstep] at h
      rw [Option.map_eq_some'] at h
      obtain ⟨l, hl, rfl⟩ := h
      obtain ⟨hchain, hhead⟩ := ih s' l hl
      obtain ⟨hr, hmin, -⟩ := stepOnce_emit_inv hstep
      constructor
      · rw [List.chain'_cons']
        refine ⟨fun y hy => ?_, hchain⟩
        rw [hhead y hy, hmin, hr]
      · intro r' hr'
        simp only [List.head?_cons, Option.some.injEq] at hr'
        subst hr'
        rw [hr]
    | cont s' =>
      rw [hstep] at h
      have := ih s' qs h
      rw [stepOnce_cont_inv hstep] at this
      exact this

/-- Any finished run of the loop satisfies: every emitted range except
possibly the last one had an in-band probed count, hence at most the
threshold. -/
theorem loop_threshold (probe : Int → Int → Nat) (M : Int) :
    ∀ (fuel : Nat) (s : SState) (qs : List PriceRange),
      loop probe M fuel s = some qs →
      ∀ (i : Nat) (r : PriceRange), qs[i]? = some r → i + 1 < qs.length →
        probe r.minPrice r.maxPrice ≤ threshold := by
  intro fuel
  induction fuel with
  | zero => intro s qs h; simp [loop] at h
  | succ n ih =>
    intro s qs h
    simp only [loop] at h
    cases hstep : stepOnce probe M s with
    | last r =>
      rw [hstep] at h
      simp only [Option.some.injEq] at h
      subst h
      intro i r' _ hlen
      simp at hlen
    | stop =>
      rw [hstep] at h
      simp only [Option.some.injEq] at h
      subst h
      intro i r' hr' _
      simp at hr'
    | emit r s' =>
      rw [hstep] at h
      rw [Option.map_eq_some'] at h
      obtain ⟨l, hl, rfl⟩ := h
      intro i r' hr' hlen
      cases i with
      | zero =>
        simp only [List.getElem?_cons_zero, Option.some.injEq] at hr'
        subst hr'
        obtain ⟨hr, -, hcnt⟩ := stepOnce_emit_inv hstep
        rw [hr]
        exact hcnt
      | succ j =>
        simp only [List.getElem?_cons_succ] at hr'
        simp only [List.length_cons] at hlen
        exact ih s' l hl j r' hr' (by omega)
    | cont s' =>
      rw [hstep] at h
      exact ih s' qs h

/-- An abutting chain of non-degenerate ranges, starting at `lo` and ending
at `hi`, covers every point of `[lo, hi]`. -/
theorem chain_covers :
    ∀ (qs : List PriceRange) (lo hi x : Int),
      List.Chain' (fun a b => b.minPrice = a.maxPrice + 1) qs →
      (∀ r, qs.head? = some r → r.minPrice = lo) →
      (∀ (hne : qs ≠ []), (qs.getLast hne).maxPrice = hi) →
      (∀ r ∈ qs, r.minPrice ≤ r.maxPrice) →
      qs ≠ [] → lo ≤ x → x ≤ hi → coversPt qs x := by
  intro qs
  induction qs with
  | nil => intro lo hi x _ _ _ _ hne; exact absurd rfl hne
  | cons r rest ih =>
    intro lo hi x hchain hhead hlast hwf _ hlo hhi
    have hrlo : r.minPrice = lo := hhead r rfl
    cases rest with
    | nil =>
      refine ⟨r, List.mem_cons_self r [], ?_, ?_⟩
      · rw [hrlo]; exact hlo
      · have := hlast (by simp)
        simp only [List.getLast_singleton] at this
        rw [this]; exact hhi
    | cons r2 rest2 =>
      by_cases hx : x ≤ r.maxPrice
      · exact ⟨r, List.mem_cons_self _ _, by rw [hrlo]; exact hlo, hx⟩
      · rw [List.chain'_cons] at hchain
        obtain ⟨habut, hchain2⟩ := hchain
        have hcov := ih r2.minPrice hi x hchain2
          (fun r' hr' => by simp only [List.head?_cons, Option.some.injEq] at hr'; rw [hr'])
          (fun hne2 => by
            have := hlast (by simp)
            rwa [List.getLast_cons hne2] at this)
          (fun r' hr' => hwf r' (List.mem_cons_of_mem _ hr'))
          (by simp)
          (by rw [habut]; omega)
          hhi
        obtain ⟨r', hr', hmem⟩ := hcov
        exact ⟨r', List.mem_cons_of_mem _ hr', hmem⟩

/-! ### Claim C1: partition layout -/

/-- C1 (counterexample): the emitted sub-ranges do not always cover the
bounding range.  With a probe oracle (non-negative counts) reporting 0 for
the first probed sub-range of `[0, 150000]`, `build_subqueries` returns an
empty partition, leaving the in-bounds point 0 uncovered. -/
theorem build_subqueries_gap_cex :
    build_subqueries probeC1 0 150000 5 = .ok [] ∧
      (0 : Int) ≤ 0 ∧ (0 : Int) ≤ 150000 ∧ ¬ coversPt [] 0 := by decide

/-- C1 (amended): for every probe oracle and bounding range, the emitted
sub-ranges abut (each `minPrice` is the previous `maxPrice + 1`) and the
first one starts at `bounds.low`; if moreover the run ended with a range
reaching `bounds.high` and every emitted range is non-degenerate, the union
exactly covers `[bounds.low, bounds.high]`.  Coverage can fail only through
the zero-count early exit (line 105), as in the counterexample. -/
theorem build_subqueries_partition_layout (probe : Int → Int → Nat)
    (mainMin mainMax : Int) (fuel : Nat) (qs : List PriceRange)
    (h : build_subqueries probe mainMin mainMax fuel = .ok qs) :
    List.Chain' (fun a b => b.minPrice = a.maxPrice + 1) qs ∧
      (∀ r, qs.head? = some r → r.minPrice = mainMin) ∧
      (∀ (hne : qs ≠ []), (qs.getLast hne).maxPrice = mainMax →
        (∀ r ∈ qs, r.minPrice ≤ r.maxPrice) →
        ∀ x : Int, mainMin ≤ x → x ≤ mainMax → coversPt qs x) := by
  unfold build_subqueries at h
  split at h
  · exact absurd h (by simp)
  · rename_i s hinit
    split at h
    · exact absurd h (by simp)
    · rename_i l hloop
      injection h with h
      rw [h] at hloop
      obtain ⟨hchain, hhead⟩ := loop_chain probe mainMax fuel s qs hloop
      rw [initState_minPrice hinit] at hhead
      refine ⟨hchain, hhead, fun hne hlast hwf x hx1 hx2 => ?_⟩
      exact chain_covers qs mainMin mainMax x hchain hhead
        (fun hne' => hlast) hwf hne hx1 hx2

/-- C1 (witness): the two-range run produced by `probeC2` covers the
in-bounds point 60000. -/
theorem build_subqueries_partition_layout_witness :
    coversPt [⟨0, 50000⟩, ⟨50001, 100000⟩] 60000 :=
  (build_subqueries_partition_layout probeC2 0 100000 2
      [⟨0, 50000⟩, ⟨50001, 100000⟩] (by decide)).2.2
    (by decide) (by decide) (by decide) 60000 (by decide) (by decide)

/-! ### Claim C2: threshold respect -/

/-- C2: for every probe oracle and bounding range, every sub-range emitted
by `build_subqueries` except possibly the last one has a probed count at
most the threshold 3800; only the final sub-range (emitted when the current
`maxPrice` reaches the bound, line 96) escapes the in-band check. -/
theorem build_subqueries_threshold_respect (probe : Int → Int → Nat)
    (mainMin mainMax : Int) (fuel : Nat) (qs : List PriceRange)
    (h : build_subqueries probe mainMin mainMax fuel = .ok qs) :
    ∀ (i : Nat) (r : PriceRange), qs[i]? = some r → i + 1 < qs.length →
      probe r.minPrice r.maxPrice ≤ threshold := by
  unfold build_subqueries at h
  split at h
  · exact absurd h (by simp)
  · rename_i s hinit
    split at h
    · exact absurd h (by simp)
    · rename_i l hloop
      injection h with h
      rw [h] at hloop
      exact loop_threshold probe mainMax fuel s qs hloop

/-- C2 (witness): on the concrete two-range run of `probeC2`, the non-final
range `[0, 50000]` indeed probed in-band (3800 ≤ 3800), while the final
range was accepted with count 9999 > 3800. -/
theorem build_subqueries_threshold_respect_witness :
    probeC2 0 50000 ≤ threshold ∧ threshold < probeC2 50001 100000 :=
  ⟨build_subqueries_threshold_respect probeC2 0 100000 2
      [⟨0, 50000⟩, ⟨50001, 100000⟩] (by decide) 0 ⟨0, 50000⟩
      (by decide) (by decide),
   by decide⟩

/-! ### Claim C3: zero total-count estimate -/

/-- A probe oracle reporting 0 everywhere (in particular for the full
bounding range). -/
def probeZero : Int → Int → Nat := fun _ _ => 0

/-- C3: when the initial probe over the full bounding range reports 0,
the code reaches `int((3800 / 0) * maxPrice)` at line 76 — a
`ZeroDivisionError`, not a short-circuit to an empty partition.  The
embedding maps this to the `divByZero` outcome, which differs from the
claimed `ok []`. -/
theorem build_subqueries_divzero_on_empty :
    build_subqueries probeZero 0 150000 10 = .divByZero ∧
      build_subqueries probeZero 0 150000 10 ≠ .ok [] := by decide

/-! ### Claim C4: termination -/

/-- First state of the adversarial 2-cycle driven by `probeC4`. -/
def cycleA : SState := ⟨0, 2000, 2000, some 2000⟩

/-- Second state of the adversarial 2-cycle driven by `probeC4`. -/
def cycleB : SState := ⟨0, 1000, 1000, some 2000⟩

theorem stepOnce_cycleA : stepOnce probeC4 160000 cycleA = .cont cycleB := by
  decide

theorem stepOnce_cycleB : stepOnce probeC4 160000 cycleB = .cont cycleA := by
  decide

theorem stepOnce_cycle_init :
    stepOnce probeC4 160000 ⟨0, 2000, 2000, none⟩ = .cont cycleB := by
  decide

/-- The loop never leaves the `cycleA`/`cycleB` 2-cycle, whatever the fuel. -/
theorem loop_cycle_none (fuel : Nat) :
    loop probeC4 160000 fuel cycleA = none ∧
      loop probeC4 160000 fuel cycleB = none := by
  induction fuel with
  | zero => exact ⟨rfl, rfl⟩
  | succ n ih =>
    constructor
    · simp only [loop, stepOnce_cycleA]
      exact ih.2
    · simp only [loop, stepOnce_cycleB]
      exact ih.1

/-- The run of `build_subqueries` on this oracle exceeds every fuel bound:
the source loop runs forever. -/
theorem probeC4_timeout (fuel : Nat) :
    build_subqueries probeC4 0 160000 fuel = .timeout := by
  have hinit : initState probeC4 0 160000 = some ⟨0, 2000, 2000, none⟩ := by
    decide
  unfold build_subqueries
  rw [hinit]
  cases fuel with
  | zero => rfl
  | succ n =>
    simp only [loop, stepOnce_cycle_init, (loop_cycle_none n).2]

/-- The partitioning loop of `build_subqueries` never finishes on the given
probe oracle and bounding range, for any number of iterations. -/
def neverTerminates (probe : Int → Int → Nat) (lo hi : Int) : Prop :=
  ∀ fuel : Nat, build_subqueries probe lo hi fuel = .timeout

/-- C4 (counterexample): on the finite bounding range `[0, 160000]` with
the non-negative oracle `probeC4` (total 304000, then counts 7600 / 1900
alternating by range), the partitioning loop never terminates: the step
oscillates between 2000 and 1000 forever. -/
theorem build_subqueries_diverges_cex : neverTerminates probeC4 0 160000 :=
  fun fuel => probeC4_timeout fuel

/-- C4 (amended): termination is not guaranteed.  There exists a finite
bounding range with a positive total estimate and a probe oracle returning
valid non-negative counts on which the partitioning loop of
`build_subqueries` runs forever — the code has no probe budget. -/
theorem build_subqueries_divergence_exists :
    ∃ (probe : Int → Int → Nat) (lo hi : Int),
      lo < hi ∧ probe lo hi ≠ 0 ∧ neverTerminates probe lo hi :=
  ⟨probeC4, 0, 160000, by decide, by decide, fun fuel => probeC4_timeout fuel⟩

/-! ### Claim C5: bisection clamp on overflow -/

/-- C5 (counterexample): a run of `probeC5` reaching the clamp (line 136)
with `currentLow = 37501`, last `currentHigh = 107081` and
`highest_seen_current = 75000`.  The clamp fires (the candidate step 139160
exceeds 75000), yet the new `currentHigh` is 128542 — not the midpoint of
107081 and 75000 (91040 or 91041), and still past `highest_seen_current`. -/
theorem bisect_clamp_cex :
    initState probeC5 0 150000 = some ⟨0, 37500, 37500, none⟩ ∧
      stepOnce probeC5 150000 ⟨0, 37500, 37500, none⟩ =
        .emit ⟨0, 37500⟩ ⟨37501, 75000, 37500, none⟩ ∧
      stepOnce probeC5 150000 ⟨37501, 75000, 37500, none⟩ =
        .cont ⟨37501, 72291, 34790, some 75000⟩ ∧
      stepOnce probeC5 150000 ⟨37501, 72291, 34790, some 75000⟩ =
        .cont ⟨37501, 107081, 69580, some 75000⟩ ∧
      (75000 : Int) < cappedStep 69580 (probeC5 37501 107081) ∧
      stepOnce probeC5 150000 ⟨37501, 107081, 69580, some 75000⟩ =
        .cont ⟨37501, 128542, 91041, some 75000⟩ ∧
      (128542 : Int) ≠ pydiv (75000 + 107081) 2 ∧
      (128542 : Int) ≠ pydiv (75000 + 107081) 2 + 1 ∧
      (75000 : Int) < 128542 := by decide

/-- C5 (amended): in an out-of-band iteration with `highest_seen_current`
set to `h`, when the corrected-and-capped candidate step exceeds `h`, the
step is reassigned to `int((h - currentHigh)/2) + currentHigh` — the
midpoint of the last `currentHigh` and `h` taken as an absolute price —
and the next probed `currentHigh` becomes `currentLow` plus that midpoint
(clamped to `bounds.high`), which equals the midpoint itself only when
`currentLow = 0`.  The comparison clamps the step against `h`, not
`currentLow + step`. -/
theorem stepOnce_bisect_clamp (probe : Int → Int → Nat) (M : Int)
    (s : SState) (h : Int)
    (hmax : s.maxPrice ≠ M)
    (hcnt : probe s.minPrice s.maxPrice ≠ 0)
    (hoob : threshold < probe s.minPrice s.maxPrice ∨
      (probe s.minPrice s.maxPrice < threshold ∧
        1000 < threshold - probe s.minPrice s.maxPrice))
    (hh : updHighest s.highest s.maxPrice (probe s.minPrice s.maxPrice) = some h)
    (htrig : h < cappedStep s.step (probe s.minPrice s.maxPrice)) :
    stepOnce probe M s = .cont
      ⟨s.minPrice,
       if M < s.minPrice + (pydiv (h - s.maxPrice) 2 + s.maxPrice) then M
       else s.minPrice + (pydiv (h - s.maxPrice) 2 + s.maxPrice),
       pydiv (h - s.maxPrice) 2 + s.maxPrice,
       some h⟩ := by
  simp only [stepOnce]
  rw [if_neg hmax, if_neg hcnt, if_pos hoob, hh]
  simp only [bisectStep]
  rw [if_pos htrig]

/-- C5 (witness): the amended transition applied at the concrete clamp
state of the `probeC5` run. -/
theorem stepOnce_bisect_clamp_witness :
    stepOnce probeC5 150000 ⟨37501, 107081, 69580, some 75000⟩ = .cont
      ⟨(⟨37501, 107081, 69580, some 75000⟩ : SState).minPrice,
       if (150000 : Int) < (⟨37501, 107081, 69580, some 75000⟩ : SState).minPrice +
           (pydiv (75000 - (⟨37501, 107081, 69580, some 75000⟩ : SState).maxPrice) 2 +
             (⟨37501, 107081, 69580, some 75000⟩ : SState).maxPrice) then 150000
       else (⟨37501, 107081, 69580, some 75000⟩ : SState).minPrice +
           (pydiv (75000 - (⟨37501, 107081, 69580, some 75000⟩ : SState).maxPrice) 2 +
             (⟨37501, 107081, 69580, some 75000⟩ : SState).maxPrice),
       pydiv (75000 - (⟨37501, 107081, 69580, some 75000⟩ : SState).maxPrice) 2 +
         (⟨37501, 107081, 69580, some 75000⟩ : SState).maxPrice,
       some 75000⟩ :=
  stepOnce_bisect_clamp probeC5 150000 ⟨37501, 107081, 69580, some 75000⟩ 75000
    (by decide) (by decide) (by decide) (by decide) (by decide)

/-! ### Claim C7: in-band accept transition -/

/-- C7 (counterexample): accepting `[0, 37500]` under `probeC5` seeds the
next step to the accepted width 37500 and sets the next `currentLow` to
37501, but the next `currentHigh` is 75000 = accepted `maxPrice` + step,
not `min(new currentLow + step, bounds.high) = 75001`. -/
theorem accept_transition_cex :
    initState probeC5 0 150000 = some ⟨0, 37500, 37500, none⟩ ∧
      stepOnce probeC5 150000 ⟨0, 37500, 37500, none⟩ =
        .emit ⟨0, 37500⟩ ⟨37501, 75000, 37500, none⟩ ∧
      (75000 : Int) ≠ min (37501 + 37500) 150000 := by decide

/-- C7 (amended): in every in-band iteration the next state has `stepSize`
equal to the accepted width `currentHigh - currentLow`, new
`currentLow = currentHigh + 1`, and new `currentHigh` equal to
`min(accepted currentHigh + stepSize, bounds.high)` — i.e.
`min(new currentLow + stepSize - 1, bounds.high)`, one less than the
claimed `new currentLow + stepSize` whenever the bound does not clamp. -/
theorem stepOnce_accept (probe : Int → Int → Nat) (M : Int) (s : SState)
    (hmax : s.maxPrice ≠ M)
    (hcnt : probe s.minPrice s.maxPrice ≠ 0)
    (hin : ¬(threshold < probe s.minPrice s.maxPrice ∨
      (probe s.minPrice s.maxPrice < threshold ∧
        1000 < threshold - probe s.minPrice s.maxPrice))) :
    stepOnce probe M s = .emit ⟨s.minPrice, s.maxPrice⟩
      ⟨s.maxPrice + 1,
       min (s.maxPrice + (s.maxPrice - s.minPrice)) M,
       s.maxPrice - s.minPrice,
       none⟩ := by
  simp only [stepOnce]
  rw [if_neg hmax, if_neg hcnt, if_neg hin]
  rcases lt_or_ge (s.maxPrice + (s.maxPrice - s.minPrice)) M with hc | hc
  · rw [if_pos hc, min_eq_left hc.le]
  · rw [if_neg (not_lt.mpr hc), min_eq_right hc]

/-- C7 (witness): the amended transition applied at the concrete accept
state of the `probeC5` run. -/
theorem stepOnce_accept_witness :
    stepOnce probeC5 150000 ⟨0, 37500, 37500, none⟩ =
      .emit ⟨(⟨0, 37500, 37500, none⟩ : SState).minPrice,
             (⟨0, 37500, 37500, none⟩ : SState).maxPrice⟩
        ⟨(⟨0, 37500, 37500, none⟩ : SState).maxPrice + 1,
         min ((⟨0, 37500, 37500, none⟩ : SState).maxPrice +
           ((⟨0, 37500, 37500, none⟩ : SState).maxPrice -
             (⟨0, 37500, 37500, none⟩ : SState).minPrice)) 150000,
         (⟨0, 37500, 37500, none⟩ : SState).maxPrice -
           (⟨0, 37500, 37500, none⟩ : SState).minPrice,
         none⟩ :=
  stepOnce_accept probeC5 150000 ⟨0, 37500, 37500, none⟩
    (by decide) (by decide) (by decide)

/-! ### Claim C6: initial step size -/

/-- The spec's initial step formula, following its words for comparison
with the code's `initState`:
`stepSize = round(threshold / totalCountEstimate * (bounds.high - bounds.low))`. -/
def specInitialStep (total : Nat) (lo hi : Int) : Int :=
  round ((threshold * (hi - lo) : ℚ) / (total : ℚ))

/-- C6 (counterexample): on bounds `[50000, 150000]` with total estimate
15200, the spec formula gives step 25000 and first `currentHigh` 75000,
but the code computes `int(3800 / 15200 * 150000) = 37500` — it multiplies
by `bounds.high`, not the width — and assigns it directly as `maxPrice`
(not `currentLow + stepSize`), giving first probed `currentHigh` 37500,
which even lies below `bounds.low`.  And on `[0, 150000]` with total 950
the unclamped first `currentHigh` is 600000, outside the bounds. -/
theorem initState_cex :
    initState probeC6 50000 150000 = some ⟨50000, 37500, 37500, none⟩ ∧
      specInitialStep 15200 50000 150000 = 25000 ∧
      (37500 : Int) ≠ 50000 + 25000 ∧
      (37500 : Int) < 50000 ∧
      initState probeC6 0 150000 = some ⟨0, 600000, 600000, none⟩ ∧
      (150000 : Int) < 600000 := by
  refine ⟨by decide, ?_, by decide, by decide, by decide, by decide⟩
  unfold specInitialStep threshold
  norm_num

/-- C6 (amended): with a positive total estimate, the initial state keeps
`minPrice = bounds.low` and sets both the step and the first probed
`currentHigh` to `int(threshold / total * bounds.high)` — computed from
`bounds.high` rather than the width, truncated rather than rounded,
assigned directly as `maxPrice` rather than `currentLow + stepSize`, and
not clamped to the bounds.  When `bounds.low = 0` and the division is
exact, this agrees with the spec formula `low + round(threshold / total *
(high - low))`. -/
theorem initState_spec (probe : Int → Int → Nat) (mainMin mainMax : Int)
    (s : SState) (h : initState probe mainMin mainMax = some s) :
    s.minPrice = mainMin ∧
      s.maxPrice = pydiv (threshold * mainMax) (probe mainMin mainMax) ∧
      s.step = s.maxPrice ∧
      (mainMin = 0 → ((probe mainMin mainMax : Int)) ∣ (threshold * mainMax) →
        s.maxPrice = mainMin +
          specInitialStep (probe mainMin mainMax) mainMin mainMax) := by
  have hs : s = ⟨mainMin, pydiv (threshold * mainMax) (probe mainMin mainMax),
      pydiv (threshold * mainMax) (probe mainMin mainMax), none⟩ ∧
      probe mainMin mainMax ≠ 0 := by
    simp only [initState] at h
    split_ifs at h with h0 <;>
      first
        | (injection h with h; exact ⟨h.symm, h0⟩)
        | injection h
  obtain ⟨rfl, hnz⟩ := hs
  refine ⟨rfl, rfl, rfl, fun h0 hdvd => ?_⟩
  subst h0
  obtain ⟨k, hk⟩ := hdvd
  have hq : ((probe 0 mainMax : ℚ)) ≠ 0 := by exact_mod_cast hnz
  unfold pydiv specInitialStep
  rw [hk, Int.mul_tdiv_cancel_left _ (by exact_mod_cast hnz)]
  rw [Int.cast_zero, sub_zero, zero_add]
  have hc : ((threshold : ℚ)) * (mainMax : ℚ) =
      ((probe 0 mainMax : ℚ)) * (k : ℚ) := by exact_mod_cast hk
  rw [hc, mul_div_cancel_left₀ _ hq, round_intCast]

/-- C6 (witness): the amended description applied at bounds `[0, 150000]`
with total 950, where the division is exact: the code's unclamped first
`currentHigh` is 600000 = 0 + the spec-formula value. -/
theorem initState_spec_witness :
    (⟨0, 600000, 600000, none⟩ : SState).minPrice = 0 ∧
      (⟨0, 600000, 600000, none⟩ : SState).maxPrice =
        pydiv (threshold * 150000) (probeC6 0 150000) ∧
      (⟨0, 600000, 600000, none⟩ : SState).step =
        (⟨0, 600000, 600000, none⟩ : SState).maxPrice ∧
      ((0 : Int) = 0 → ((probeC6 0 150000 : Int)) ∣ (threshold * 150000) →
        (⟨0, 600000, 600000, none⟩ : SState).maxPrice =
          0 + specInitialStep (probeC6 0 150000) 0 150000) :=
  initState_spec probeC6 0 150000 ⟨0, 600000, 600000, none⟩ (by decide)

/-! ### Claim C8: retry policy of `make_request` (lines 173-198)

The JSON response is modelled as an association list of top-level fields,
each carrying a record list; records are opaque (`Nat`).  A structurally
empty response (`len(list(json_response.keys())) == 0`) is the empty list.
The fetch transport is a call-indexed oracle `fetch : Nat → Resp`, so a
stub can answer differently on successive attempts. -/

/-- A top-level JSON field name: the distinguished `'listings'` key or any
other key. -/
inductive JKey where
  | listings
  | other
deriving DecidableEq

/-- A JSON response object: top-level fields with record-list values. -/
abbrev Resp := List (JKey × List Nat)

/-- Field lookup `json_response.get('listings', [])` (line 193). -/
def getListings : Resp → List Nat
  | [] => []
  | (JKey.listings, l) :: _ => l
  | _ :: rest => getListings rest

/-- The retry loop of `make_request` (lines 178-191): `budget` is the
current `retry_count`, `idx` counts requests already made.  Returns the
final `json_response` together with the number of retries performed.
When the budget is 0 and the response is empty, `retry_count` becomes -1
and the loop breaks with that response, so both sides of the test return
the same value. -/
def mr_loop (fetch : Nat → Resp) : Nat → Nat → Resp × Nat
  | 0, idx => (fetch idx, idx)
  | b + 1, idx =>
    if (fetch idx).length ≠ 0 then (fetch idx, idx)
    else mr_loop fetch b (idx + 1)

/-- The fetcher `make_request` (lines 173-198): returns the `'listings'` field of the
final response, the number of retries performed, and the total time slept
(5 units before each retry, line 191). -/
def make_request (fetch : Nat → Resp) : List Nat × Nat × Nat :=
  let p := mr_loop fetch 5 0
  (getListings p.1, p.2, 5 * p.2)

/-- If the first `k` responses are empty and the `k`-th call succeeds
within budget, the retry loop stops there. -/
theorem mr_loop_first_success (fetch : Nat → Resp) :
    ∀ (k b idx : Nat), k ≤ b →
      (∀ i, i < k → fetch (idx + i) = []) → fetch (idx + k) ≠ [] →
      mr_loop fetch b idx = (fetch (idx + k), idx + k) := by
  intro k
  induction k with
  | zero =>
    intro b idx _ _ hne
    cases b with
    | zero => simp [mr_loop]
    | succ b' =>
      rw [mr_loop, if_pos]
      · simp
      · simpa [List.length_eq_zero] using hne
  | succ k ih =>
    intro b idx hb hemp hne
    obtain ⟨b', rfl⟩ : ∃ b', b = b' + 1 := ⟨b - 1, by omega⟩
    have h0 : fetch idx = [] := by simpa using hemp 0 (by omega)
    rw [mr_loop, if_neg (by simp [h0])]
    have hemp' : ∀ i, i < k → fetch (idx + 1 + i) = [] := fun i hi => by
      have := hemp (i + 1) (by omega)
      rwa [show idx + (i + 1) = idx + 1 + i by omega] at this
    have hne' : fetch (idx + 1 + k) ≠ [] := by
      rwa [show idx + (k + 1) = idx + 1 + k by omega] at hne
    rw [ih b' (idx + 1) (by omega) hemp' hne']
    rw [show idx + 1 + k = idx + (k + 1) by omega]

/-- If every response is empty, the retry loop exhausts its whole budget. -/
theorem mr_loop_all_empty (fetch : Nat → Resp) (hemp : ∀ i, fetch i = []) :
    ∀ (b idx : Nat), mr_loop fetch b idx = (fetch (idx + b), idx + b) := by
  intro b
  induction b with
  | zero => intro idx; simp [mr_loop]
  | succ b' ih =>
    intro idx
    rw [mr_loop, if_neg (by simp [hemp idx])]
    rw [ih (idx + 1)]
    rw [show idx + 1 + b' = idx + (b' + 1) by omega]

/-- C8: (a) a fetch stub returning structurally empty responses for exactly
`k < 5` calls and then a non-empty one makes `make_request` retry exactly
`k` times, sleep 5 units before each retry, and return that response's
record list; (b) a stub that always returns empty responses makes it retry
exactly 5 times and return the (empty) record list of the last response,
without raising. -/
theorem make_request_retry_policy :
    (∀ (fetch : Nat → Resp) (k : Nat), k < 5 →
      (∀ i, i < k → fetch i = []) → fetch k ≠ [] →
      make_request fetch = (getListings (fetch k), k, 5 * k)) ∧
    (∀ fetch : Nat → Resp, (∀ i, fetch i = []) →
      make_request fetch = ([], 5, 25)) := by
  constructor
  · intro fetch k hk hemp hne
    unfold make_request
    rw [mr_loop_first_success fetch k 5 0 (by omega)
      (by simpa using hemp) (by simpa using hne)]
    simp
  · intro fetch hemp
    unfold make_request
    rw [mr_loop_all_empty fetch hemp 5 0]
    simp [hemp 5, getListings]

/-- Fetch stub for the witness: empty twice, then a response whose
`'listings'` field holds two records. -/
def fetchW : Nat → Resp := fun i =>
  if i < 2 then [] else [(JKey.listings, [7, 8])]

/-- C8 (witness): the stub empty for exactly 2 calls is retried exactly
twice (10 units slept) and yields its third response's records; the
policy theorem applied at `fetchW` and `k = 2`. -/
theorem make_request_retry_policy_witness :
    make_request fetchW = ([7, 8], 2, 10) := by
  have h := make_request_retry_policy.1 fetchW 2 (by decide) (by decide) (by decide)
  rw [h]
  rfl

/-! ### Claims C9 and C10: pooled fetch aggregation (lines 200-207)

`Pool.map` splits the input list into contiguous chunks, each processed by
a worker, and returns the per-input results in input order; `poolChunks c`
models chunks of size `c + 1` (the exact chunk size is a library detail,
so results are proved for every chunk size). -/

/-- Contiguous chunks of size `c + 1`. -/
def poolChunks (c : Nat) : List PriceRange → List (List PriceRange)
  | [] => []
  | x :: xs => (x :: xs.take c) :: poolChunks c (xs.drop c)
termination_by l => l.length
decreasing_by simp; omega

theorem poolChunks_flatten_le (c : Nat) :
    ∀ (n : Nat) (l : List PriceRange), l.length ≤ n →
      (poolChunks c l).flatten = l := by
  intro n
  induction n with
  | zero =>
    intro l h
    have : l = [] := by cases l <;> simp_all
    subst this
    simp [poolChunks]
  | succ n ih =>
    intro l h
    cases l with
    | nil => simp [poolChunks]
    | cons x xs =>
      rw [poolChunks, List.flatten_cons, ih (xs.drop c)
        (by simp only [List.length_drop]; simp only [List.length_cons] at h; omega)]
      simp

/-- Rejoining the chunks in order restores the input list. -/
theorem poolChunks_flatten (c : Nat) (l : List PriceRange) :
    (poolChunks c l).flatten = l :=
  poolChunks_flatten_le c l.length l le_rfl

/-- The call `pool.map(f, xs)`: per-chunk mapping by the workers, results collected
in input order. -/
def pool_map (c : Nat) (f : PriceRange → List Nat) (xs : List PriceRange) :
    List (List Nat) :=
  ((poolChunks c xs).map (List.map f)).flatten

/-- Chunked mapping is plain mapping, whatever the chunk size. -/
theorem pool_map_eq_map (c : Nat) (f : PriceRange → List Nat)
    (xs : List PriceRange) : pool_map c f xs = xs.map f := by
  unfold pool_map
  rw [← List.map_flatten, poolChunks_flatten]

/-- The aggregator `run_subqueries` (lines 200-207): `Pool(processes=4).map` over the
sub-range queries, then `all_listings.extend(listings)` for each result in
order. -/
def run_subqueries (fetch : PriceRange → List Nat) (qs : List PriceRange) :
    List Nat :=
  (pool_map 3 fetch qs).flatten

/-- C9: the aggregate record list has length equal to the sum of the
per-sub-range record-list lengths — no record is dropped or duplicated —
and the result does not depend on the worker pool's chunk size. -/
theorem run_subqueries_length_sum (fetch : PriceRange → List Nat)
    (qs : List PriceRange) :
    (run_subqueries fetch qs).length =
        (qs.map (fun q => (fetch q).length)).sum ∧
      ∀ c, (pool_map c fetch qs).flatten = run_subqueries fetch qs := by
  constructor
  · unfold run_subqueries
    rw [pool_map_eq_map, List.length_flatten, List.map_map]
    rfl
  · intro c
    unfold run_subqueries
    rw [pool_map_eq_map, pool_map_eq_map]

/-- C10: the aggregate is exactly the in-order concatenation of the
per-sub-range record lists — `Pool.map` preserves input order, so the
result is fully deterministic. -/
theorem run_subqueries_ordered_concat (fetch : PriceRange → List Nat)
    (qs : List PriceRange) :
    run_subqueries fetch qs = (qs.map fetch).flatten := by
  unfold run_subqueries
  rw [pool_map_eq_map]

end Autotrader
